import Mathlib

/-!
# trt_type_examples: the two test programs `main1b.cpp` and `main1d_int8act.cpp`

A shallow embedding of the two harness programs.  The inference engine they call is
external; every call into it is represented by the answer it gives (a null or
non-null handle, a status flag, the contents of the host output buffer), so that the
programs' own control flow, loops and arithmetic can be stated and proved.

Conventions
* A pointer or handle is an `Option`: `none` is the null pointer.
* `int` is a 32-bit two's-complement integer, represented by an `Int`.  An `int`
  operation whose exact result is not representable is a signed overflow, which the
  language leaves undefined: the operation has no result (`none`).
* `uint8_t` is an `Int` in `0 .. 255`; conversion to it is reduction modulo `256`.
* Every `float` that occurs in the programs has an integer value, so a `float` is
  represented by the integer it denotes; a conversion to `float` and every `float`
  operation rounds to 24 significant bits, ties to even (`toFloat32`).
* A `double` is the rational number it denotes exactly.
-/

namespace TrtTypeExamples

/-! ## Machine arithmetic -/

/-- Whether a value is representable as an `int`. -/
def IsInt32 (x : Int) : Prop := -2 ^ 31 ≤ x ∧ x < 2 ^ 31

/-- Whether a value is representable as a `uint8_t`. -/
def IsUInt8 (x : Int) : Prop := 0 ≤ x ∧ x < 256

/-- Conversion of an `int` to `uint8_t` (the assignment `hostShapeBuffer[i] = values[i]`
of `main1d_int8act.cpp`): reduction modulo `2^8`. -/
def toUInt8 (v : Int) : Int := v % 256

/-- The value of a byte when it is read as a two's-complement signed 8-bit number, which
is how a tensor of type `kINT8` reads the byte. -/
def asInt8 (b : Int) : Int := if b < 128 then b else b - 256

/-- The byte that holds a signed 8-bit number, which is how a `uint8_t` pointer reads it. -/
def asUInt8 (v : Int) : Int := v % 256

/-- Subtraction of two `int`s: the exact difference when it is representable as an
`int`, and no result when it is not (signed overflow). -/
def subInt32 (a b : Int) : Option Int :=
  if -2 ^ 31 ≤ a - b ∧ a - b < 2 ^ 31 then some (a - b) else none

/-- The function `std::abs` on `int`: the absolute value when it is representable as an
`int`, and no result when it is not (the absolute value of `-2^31`). -/
def absInt32 (x : Int) : Option Int :=
  if |x| < 2 ^ 31 then some |x| else none

/-- Rounding of a natural number to the nearest number with at most 24 significant
bits, ties to the even significand. -/
def roundNat24 (n : Nat) : Nat :=
  if n < 2 ^ 24 then n
  else
    let sh := Nat.log2 n - 23
    let q := n / 2 ^ sh
    let r := n % 2 ^ sh
    let half := 2 ^ (sh - 1)
    if r < half then q * 2 ^ sh
    else if half < r then (q + 1) * 2 ^ sh
    else if q % 2 = 0 then q * 2 ^ sh
    else (q + 1) * 2 ^ sh

/-- The `float` nearest to an integer (round to nearest, ties to even): the conversion
of an `int` to `float`, and the rounding of an exact integer result of a `float`
operation. -/
def toFloat32 (v : Int) : Int := Int.sign v * (roundNat24 v.natAbs : Int)

/-- Subtraction of two integer-valued `float`s: the exact difference, rounded. -/
def subFloat32 (a b : Int) : Int := toFloat32 (a - b)

/-- The `double` literal `0.00001`, exactly: `0x1.4f8b588e368f1p-17`. -/
def tolMain1b : ℚ := 5902958103587057 / 2 ^ 69

/-- The `double` literal `0.025`, exactly: `0x1.999999999999ap-6`. -/
def tolInt8act : ℚ := 3602879701896397 / 2 ^ 57

/-- The test `std::abs(res[i] - expected_output[i]) > 0.00001` of `main1b.cpp`, with
`res[i]` an `int` and `expected_output[i]` a `float`: the `int` is converted to
`float`, the subtraction and `std::abs` are done in `float`, and the result is compared
as a `double`. -/
def exceedsMain1b (res : Int) (expected : Int) : Bool :=
  decide (tolMain1b < ((|subFloat32 (toFloat32 res) expected| : Int) : ℚ))

/-- The test `std::abs(res[i] - expected_output[i]) > 0.025` of `main1d_int8act.cpp`,
with `res[i]` a `uint8_t` and `expected_output[i]` an `int`: the byte is promoted to
`int`, the subtraction and `std::abs` are done in `int`, and the result is converted to
`double` for the comparison.  The test has no result when the subtraction or `std::abs`
overflows. -/
def exceedsInt8act (res : Int) (expected : Int) : Option Bool :=
  match subInt32 res expected with
  | none => none
  | some d =>
    match absInt32 d with
    | none => none
    | some a => some (decide (tolInt8act < (a : ℚ)))

/-- The test of `main1d_int8act.cpp` in exact integer arithmetic: the value that
`exceedsInt8act` has whenever it has one. -/
def exceedsExact (res : Int) (expected : Int) : Bool :=
  decide (tolInt8act < ((|res - expected| : Int) : ℚ))

/-! ## The external engine and the test logger

Each object of the engine's API is a record of the answers its methods give to the
calls the programs make.  Handles on which the programs call nothing whose answer they
use are booleans: `true` is a non-null pointer. -/

/-- An execution context (`nvinfer1::IExecutionContext`) together with the buffers the
`BufferManager` holds for it. -/
structure IExecutionContext where
  /-- The status returned by `executeV2`. -/
  executeV2 : Bool
  /-- Element `i` of the host buffer named "output" once `copyOutputToHost` has run.  In
  `main1b.cpp` it is read as an `int`; in `main1d_int8act.cpp` it is read as a `uint8_t`,
  so that the value read is its reduction to a byte. -/
  hostOutput : Nat → Int

/-- A built engine (`nvinfer1::ICudaEngine`). -/
structure ICudaEngine where
  createExecutionContext : Option IExecutionContext
  getNbBindings : Int
  bindingIsInput : Nat → Bool

/-- A network under construction (`nvinfer1::INetworkDefinition`): whether each of the
calls that add a tensor or a layer returns a non-null pointer. -/
structure INetworkDefinition where
  addInput : Bool
  addShape : Bool
  addUnary : Bool
  addActivation : Bool
  addIdentity : Bool

/-- A builder (`nvinfer1::IBuilder`). -/
structure IBuilder where
  createNetworkV2 : Option INetworkDefinition
  createBuilderConfig : Bool
  buildEngineWithConfig : Option ICudaEngine

/-- The library entry point `nvinfer1::createInferBuilder`. -/
structure TensorRT where
  createInferBuilder : Option IBuilder

/-- The test logger `gLogger`: the values its `reportPass` and `reportFail` return. -/
structure Logger where
  reportPass : Int
  reportFail : Int

/-- What a run does that can be observed. -/
inductive Event where
  /-- The call `gLogger.reportTestStart(sampleTest)`. -/
  | reportTestStart
  /-- The call `gLogger.reportPass(sampleTest)`. -/
  | reportPass
  /-- The call `gLogger.reportFail(sampleTest)`. -/
  | reportFail
  /-- The call `sample.build()`. -/
  | build
  /-- The call `sample.infer()`. -/
  | infer
  /-- The store `hostShapeBuffer[i] = values[i]`, with the value as stored. -/
  | setInput (i : Nat) (stored : Int)
  /-- The call `buffers.copyInputToDevice()`. -/
  | copyInputToDevice
  /-- The call `context->executeV2(...)`. -/
  | executeV2
  /-- The call `buffers.copyOutputToHost()`. -/
  | copyOutputToHost
  /-- The read of `res[i]` that is printed as correct. -/
  | okLine (i : Nat) (res : Int)
  /-- The read of `res[i]` that is printed as an incorrect value. -/
  | errorLine (i : Nat) (res : Int) (expected : Int)
  deriving DecidableEq, Repr

/-- A run of a function: what it did, and what it returned.  The result `none` is a run
that does not return: a failed `assert`, or a call through a null pointer. -/
structure Run (α : Type) where
  log : List Event
  result : Option α

/-- The object `sample`: its only member is the engine pointer. -/
structure TrtExample where
  mEngine : Option ICudaEngine

/-- The shape of a tensor (`nvinfer1::Dims`). -/
structure Dims where
  nbDims : Nat
  d : List Int
  deriving DecidableEq, Repr

/-- The loop `for (int i = 0; i < mEngine->getNbBindings(); i++) if (bindingIsInput(i))
n_inputs++;` of `infer`. -/
def countInputs (engine : ICudaEngine) : Nat :=
  ((List.range engine.getNbBindings.toNat).filter engine.bindingIsInput).length

/-- The loop of `infer` that fills the host input buffer, from index `i` on: `store` is
the conversion to the element type of the buffer. -/
def inputLoop (store : Int → Int) : Nat → List Int → List Event
  | _, [] => []
  | i, v :: vs => Event.setInput i (store v) :: inputLoop store (i + 1) vs

/-- The loop of `infer` that verifies the output, from index `i` on, with `correct` the
value of the flag so far: `exceeds` is the tolerance test of the program.  It returns
the final flag and the lines printed. -/
def compareLoop (exceeds : Int → Int → Bool) (res : Nat → Int) :
    Nat → List Int → Bool → Bool × List Event
  | _, [], correct => (correct, [])
  | i, e :: es, correct =>
    if exceeds (res i) e then
      let rest := compareLoop exceeds res (i + 1) es false
      (rest.1, Event.errorLine i (res i) e :: rest.2)
    else
      let rest := compareLoop exceeds res (i + 1) es correct
      (rest.1, Event.okLine i (res i) :: rest.2)

/-- The loop of `infer` that verifies the output, for a tolerance test that may have no
result: from index `i` on, with `correct` the value of the flag so far.  The run of the
loop has the lines printed as its log; it has no result when a test has none, and then
the log stops before that element. -/
def checkedCompareLoop (exceeds : Int → Int → Option Bool) (res : Nat → Int) :
    Nat → List Int → Bool → Run Bool
  | _, [], correct => ⟨[], some correct⟩
  | i, e :: es, correct =>
    match exceeds (res i) e with
    | none => ⟨[], none⟩
    | some true =>
      let rest := checkedCompareLoop exceeds res (i + 1) es false
      ⟨Event.errorLine i (res i) e :: rest.log, rest.result⟩
    | some false =>
      let rest := checkedCompareLoop exceeds res (i + 1) es correct
      ⟨Event.okLine i (res i) :: rest.log, rest.result⟩

/-! ## `main1b.cpp`: shape layer followed by negation -/

namespace Main1b

/-- The shape of the input, `nvinfer1::Dims dims{4, {1, 2, 3, 4}}`. -/
def dims : Dims := ⟨4, [1, 2, 3, 4]⟩

/-- The input data, `std::vector<float> values(24, 1)`. -/
def values : List Int := List.replicate 24 1

/-- The expected output, `std::vector<float> expected_output{2, 4, 6, 8}`. -/
def expected_output : List Int := [2, 4, 6, 8]

/-- The method `TrtExample::constructNetwork`: the three `assert`s, then the engine build, whose
result is stored in `mEngine`. -/
def constructNetwork (builder : IBuilder) (network : INetworkDefinition)
    (self : TrtExample) : Run (Bool × TrtExample) :=
  if !network.addInput then ⟨[], none⟩
  else if !network.addShape then ⟨[], none⟩
  else if !network.addUnary then ⟨[], none⟩
  else
    let self1 : TrtExample := { self with mEngine := builder.buildEngineWithConfig }
    match self1.mEngine with
    | none => ⟨[], some (false, self1)⟩
    | some _ => ⟨[], some (true, self1)⟩

/-- The method `TrtExample::build`: each of the three handles is tested as soon as
it is created, then `constructNetwork` is called and its result returned. -/
def build (trt : TensorRT) (self : TrtExample) : Run (Bool × TrtExample) :=
  match trt.createInferBuilder with
  | none => ⟨[], some (false, self)⟩
  | some builder =>
    match builder.createNetworkV2 with
    | none => ⟨[], some (false, self)⟩
    | some network =>
      if !builder.createBuilderConfig then ⟨[], some (false, self)⟩
      else
        let c := constructNetwork builder network self
        match c.result with
        | none => ⟨c.log, none⟩
        | some (false, self1) => ⟨c.log, some (false, self1)⟩
        | some (true, self1) => ⟨c.log, some (true, self1)⟩

/-- The method `TrtExample::infer`: the context is created from `mEngine`, the input
buffer is filled when the engine has an input binding, the engine is executed, and the
output is verified against `expected_output`. -/
def infer (self : TrtExample) : Run Bool :=
  match self.mEngine with
  | none => ⟨[], none⟩
  | some engine =>
    match engine.createExecutionContext with
    | none => ⟨[], some false⟩
    | some context =>
      let inputLog :=
        if 0 < countInputs engine then
          inputLoop id 0 values ++ [Event.copyInputToDevice]
        else []
      if !context.executeV2 then ⟨inputLog ++ [Event.executeV2], some false⟩
      else
        let c := compareLoop exceedsMain1b context.hostOutput 0 expected_output true
        ⟨inputLog ++ [Event.executeV2, Event.copyOutputToHost] ++ c.2, some c.1⟩

/-- The function `main`. -/
def main (trt : TensorRT) (gLogger : Logger) : Run Int :=
  let sample : TrtExample := ⟨none⟩
  let b := build trt sample
  match b.result with
  | none => ⟨[Event.reportTestStart, Event.build] ++ b.log, none⟩
  | some (false, _) =>
    ⟨[Event.reportTestStart, Event.build] ++ b.log ++ [Event.reportFail],
      some gLogger.reportFail⟩
  | some (true, sample1) =>
    let r := infer sample1
    match r.result with
    | none => ⟨[Event.reportTestStart, Event.build] ++ b.log ++ [Event.infer] ++ r.log, none⟩
    | some false =>
      ⟨[Event.reportTestStart, Event.build] ++ b.log ++ [Event.infer] ++ r.log
          ++ [Event.reportFail], some gLogger.reportFail⟩
    | some true =>
      ⟨[Event.reportTestStart, Event.build] ++ b.log ++ [Event.infer] ++ r.log
          ++ [Event.reportPass], some gLogger.reportPass⟩

end Main1b

/-! ## `main1d_int8act.cpp`: INT8 activation followed by identity -/

namespace Main1dInt8act

/-- The shape of the input, `nvinfer1::Dims dims{4, {1, 1, 1, 4}}`. -/
def dims : Dims := ⟨4, [1, 1, 1, 4]⟩

/-- The input data, `std::vector<int> values{-1, 0, 1, 2}`. -/
def values : List Int := [-1, 0, 1, 2]

/-- The expected output, `std::vector<int> expected_output{0, 0, 1, 2}`. -/
def expected_output : List Int := [0, 0, 1, 2]

/-- The method `TrtExample::constructNetwork`: the three `assert`s, then the engine build, whose
result is stored in `mEngine`. -/
def constructNetwork (builder : IBuilder) (network : INetworkDefinition)
    (self : TrtExample) : Run (Bool × TrtExample) :=
  if !network.addInput then ⟨[], none⟩
  else if !network.addActivation then ⟨[], none⟩
  else if !network.addIdentity then ⟨[], none⟩
  else
    let self1 : TrtExample := { self with mEngine := builder.buildEngineWithConfig }
    match self1.mEngine with
    | none => ⟨[], some (false, self1)⟩
    | some _ => ⟨[], some (true, self1)⟩

/-- The method `TrtExample::build`: each of the three handles is tested as soon as
it is created, then `constructNetwork` is called and its result returned. -/
def build (trt : TensorRT) (self : TrtExample) : Run (Bool × TrtExample) :=
  match trt.createInferBuilder with
  | none => ⟨[], some (false, self)⟩
  | some builder =>
    match builder.createNetworkV2 with
    | none => ⟨[], some (false, self)⟩
    | some network =>
      if !builder.createBuilderConfig then ⟨[], some (false, self)⟩
      else
        let c := constructNetwork builder network self
        match c.result with
        | none => ⟨c.log, none⟩
        | some (false, self1) => ⟨c.log, some (false, self1)⟩
        | some (true, self1) => ⟨c.log, some (true, self1)⟩

/-- The method `TrtExample::infer`: the context is created from `mEngine`, the input
buffer is filled when the engine has an input binding, the engine is executed, and the
output, read through the `uint8_t` pointer `res`, is verified against
`expected_output`. -/
def infer (self : TrtExample) : Run Bool :=
  match self.mEngine with
  | none => ⟨[], none⟩
  | some engine =>
    match engine.createExecutionContext with
    | none => ⟨[], some false⟩
    | some context =>
      let inputLog :=
        if 0 < countInputs engine then
          inputLoop toUInt8 0 values ++ [Event.copyInputToDevice]
        else []
      if !context.executeV2 then ⟨inputLog ++ [Event.executeV2], some false⟩
      else
        let res : Nat → Int := fun i => toUInt8 (context.hostOutput i)
        let c := checkedCompareLoop exceedsInt8act res 0 expected_output true
        ⟨inputLog ++ [Event.executeV2, Event.copyOutputToHost] ++ c.log, c.result⟩

/-- The function `main`. -/
def main (trt : TensorRT) (gLogger : Logger) : Run Int :=
  let sample : TrtExample := ⟨none⟩
  let b := build trt sample
  match b.result with
  | none => ⟨[Event.reportTestStart, Event.build] ++ b.log, none⟩
  | some (false, _) =>
    ⟨[Event.reportTestStart, Event.build] ++ b.log ++ [Event.reportFail],
      some gLogger.reportFail⟩
  | some (true, sample1) =>
    let r := infer sample1
    match r.result with
    | none => ⟨[Event.reportTestStart, Event.build] ++ b.log ++ [Event.infer] ++ r.log, none⟩
    | some false =>
      ⟨[Event.reportTestStart, Event.build] ++ b.log ++ [Event.infer] ++ r.log
          ++ [Event.reportFail], some gLogger.reportFail⟩
    | some true =>
      ⟨[Event.reportTestStart, Event.build] ++ b.log ++ [Event.infer] ++ r.log
          ++ [Event.reportPass], some gLogger.reportPass⟩

end Main1dInt8act

/-! ## Reading a log -/

/-- The index read by a line of the verification loop. -/
def Event.lineIndex : Event → Option Nat
  | Event.okLine i _ => some i
  | Event.errorLine i _ _ => some i
  | _ => none

/-- The index written by a store into the host input buffer. -/
def Event.inputIndex : Event → Option Nat
  | Event.setInput i _ => some i
  | _ => none

/-- Whether an event is a call of `reportPass` or of `reportFail`. -/
def Event.isReport : Event → Bool
  | Event.reportPass => true
  | Event.reportFail => true
  | _ => false

/-- The indices of the host output buffer that a run reads, in order. -/
def comparedIndices (log : List Event) : List Nat := log.filterMap Event.lineIndex

/-- The indices of the host input buffer that a run writes, in order. -/
def writtenIndices (log : List Event) : List Nat := log.filterMap Event.inputIndex

/-- The number of calls of `reportPass` and `reportFail` in a run. -/
def reportCount (log : List Event) : Nat := log.countP Event.isReport

/-- The property the verification is meant to decide: every one of the values
`out 0, ..., out (n-1)` is within `tol` of the entry of `expected` at the same index. -/
def WithinTolerance (tol : ℚ) (out : Nat → Int) (expected : List Int) : Prop :=
  ∀ i, i < expected.length → |(out i : ℚ) - (expected.getD i 0 : ℚ)| ≤ tol

/-- Whether the four handles that `build` tests are all non-null: the builder, the
network, the builder configuration and the engine. -/
def handlesNonNull (trt : TensorRT) : Bool :=
  match trt.createInferBuilder with
  | none => false
  | some builder =>
    match builder.createNetworkV2 with
    | none => false
    | some _ => builder.createBuilderConfig && builder.buildEngineWithConfig.isSome

/-- Whether `constructNetwork` is reached and one of the pointers it asserts is null;
`layers` tells, for a network, whether the asserted pointers are all non-null. -/
def assertFails (layers : INetworkDefinition → Bool) (trt : TensorRT) : Bool :=
  match trt.createInferBuilder with
  | none => false
  | some builder =>
    match builder.createNetworkV2 with
    | none => false
    | some network => builder.createBuilderConfig && !layers network

/-- The pointers asserted by `constructNetwork` of `main1b.cpp`. -/
def Main1b.layers (network : INetworkDefinition) : Bool :=
  network.addInput && network.addShape && network.addUnary

/-- The pointers asserted by `constructNetwork` of `main1d_int8act.cpp`. -/
def Main1dInt8act.layers (network : INetworkDefinition) : Bool :=
  network.addInput && network.addActivation && network.addIdentity

/-! ## Tensors of the two networks -/

/-- The number of elements of a tensor of shape `d`: the product of its dimensions. -/
def volume (d : Dims) : Int := (d.d.take d.nbDims).prod

/-- Modelled from the spec: the shape layer of the engine (`addShape`), which is not
part of the sources.  Its output holds the dimensions of its input. -/
def shapeLayer (input : Dims) : List Int := input.d.take input.nbDims

/-- Modelled from the spec: the shape of the output of the shape layer, a
one-dimensional tensor with as many elements as the input has dimensions. -/
def shapeLayerDims (input : Dims) : Dims := ⟨1, [(input.nbDims : Int)]⟩

/-- Modelled from the spec: the element-wise negation of the engine (`addUnary` with
`kNEG`), which is not part of the sources. -/
def unaryNeg (x : List Int) : List Int := x.map (fun v => -v)

/-- Modelled from the spec: the ReLU activation of the engine (`addActivation` with
`kRELU`), which is not part of the sources: `max(0, v)` on every element. -/
def activationRelu (x : List Int) : List Int := x.map (fun v => max 0 v)

/-- Modelled from the spec: the identity layer of the engine (`addIdentity`), which is
not part of the sources. -/
def identityLayer (x : List Int) : List Int := x

/-- Modelled from the spec: an element-wise layer (negation, activation, identity) gives
its output the shape of its input. -/
def elementwiseDims (input : Dims) : Dims := input

/-- The shape of the output tensor of the network of `main1b.cpp`. -/
def Main1b.outputDims : Dims := elementwiseDims (shapeLayerDims Main1b.dims)

/-- The output of the network of `main1b.cpp`: the shape of the input, negated. -/
def Main1b.referenceOutput : List Int := unaryNeg (shapeLayer Main1b.dims)

/-- The shape of the output tensor of the network of `main1d_int8act.cpp`. -/
def Main1dInt8act.outputDims : Dims := elementwiseDims (elementwiseDims Main1dInt8act.dims)

/-- The output of the network of `main1d_int8act.cpp` on the input of the program: the
input values are stored as bytes, read by the network as signed 8-bit numbers, passed
through ReLU and the identity, and read back as bytes. -/
def Main1dInt8act.referenceOutput : List Int :=
  (identityLayer (activationRelu ((Main1dInt8act.values.map toUInt8).map asInt8))).map asUInt8

/-- An execution context whose execution succeeds and leaves `output` in the host
output buffer. -/
def contextWithOutput (output : List Int) : IExecutionContext :=
  { executeV2 := true
    hostOutput := fun i => output.getD i 0 }

/-- An engine with one input binding and one output binding, whose execution succeeds
and leaves `output` in the host output buffer. -/
def engineWithOutput (output : List Int) : ICudaEngine :=
  { createExecutionContext := some (contextWithOutput output)
    getNbBindings := 2
    bindingIsInput := fun i => decide (i = 0) }

/-- The failure paths of an `infer` function on the object `self`: when the creation
of the execution context fails, and when `executeV2` reports failure, `infer` returns
`false` and reads no output element; and a line of the verification loop occurs in a
run only when the execution succeeded, after `executeV2` and `copyOutputToHost`. -/
def FailurePaths (infer : TrtExample → Run Bool) (self : TrtExample) : Prop :=
  (∀ engine, self.mEngine = some engine → engine.createExecutionContext = none →
      (infer self).result = some false ∧ comparedIndices (infer self).log = [])
  ∧ (∀ engine context, self.mEngine = some engine →
      engine.createExecutionContext = some context → context.executeV2 = false →
      (infer self).result = some false ∧ comparedIndices (infer self).log = [])
  ∧ (∀ pre ev post, (infer self).log = pre ++ ev :: post → ev.lineIndex.isSome = true →
      (∃ engine context, self.mEngine = some engine ∧
        engine.createExecutionContext = some context ∧ context.executeV2 = true)
      ∧ Event.executeV2 ∈ pre ∧ Event.copyOutputToHost ∈ pre)

/-- The accesses of an `infer` function to the host buffers stay within buffers that
hold one element for each element of the bound tensors: the input values are as many as
the elements of the input tensor, a run writes either nothing or exactly the indices
`0 .. values.size() - 1` of the input buffer, every index written is below the element
count of the input tensor, and every index read from the output buffer is below the
element count of the output tensor. -/
def AccessesInBounds (infer : TrtExample → Run Bool) (values : List Int)
    (inputDims outputDims : Dims) : Prop :=
  (values.length : Int) = volume inputDims
  ∧ ∀ self : TrtExample,
      (writtenIndices (infer self).log = [] ∨
        writtenIndices (infer self).log = List.range values.length)
      ∧ (∀ i ∈ writtenIndices (infer self).log, (i : Int) < volume inputDims)
      ∧ (∀ i ∈ comparedIndices (infer self).log, (i : Int) < volume outputDims)

/-- An engine library in which every handle that `build` tests is non-null, and the
call `addInput` returns a null pointer. -/
def trtNullInput : TensorRT :=
  { createInferBuilder := some
      { createNetworkV2 := some
          { addInput := false, addShape := true, addUnary := true,
            addActivation := true, addIdentity := true }
        createBuilderConfig := true
        buildEngineWithConfig := some (engineWithOutput [0, 0, 1, 2]) } }

/-- A logger whose `reportPass` returns `EXIT_SUCCESS` and `reportFail` `EXIT_FAILURE`. -/
def exitCodeLogger : Logger := { reportPass := 0, reportFail := 1 }

/-- The contract of a `build` function, with `layers` the pointers its
`constructNetwork` asserts.  It does not return exactly when an asserted pointer is
null; it returns `true` exactly when the four handles are non-null and no assertion
fails, and `false` exactly when one of the four handles is null and no assertion
fails; and after it returned `true` the member `mEngine` is non-null and `infer`
returns. -/
def BuildContract (layers : INetworkDefinition → Bool)
    (build : TensorRT → TrtExample → Run (Bool × TrtExample))
    (infer : TrtExample → Run Bool) (trt : TensorRT) (self : TrtExample) : Prop :=
  ((build trt self).result = none ↔ assertFails layers trt = true)
  ∧ ((∃ self1, (build trt self).result = some (true, self1)) ↔
      (handlesNonNull trt = true ∧ assertFails layers trt = false))
  ∧ ((∃ self1, (build trt self).result = some (false, self1)) ↔
      (handlesNonNull trt = false ∧ assertFails layers trt = false))
  ∧ (∀ self1, (build trt self).result = some (true, self1) →
      self1.mEngine.isSome = true ∧ (infer self1).result.isSome = true)

/-- The contract of a `main` function built on `build` and `infer`, with `layers` the
pointers asserted by `constructNetwork`.  The run starts with `reportTestStart`;
`reportPass` is called exactly when `build` returned `true` and `infer` then returned
`true`, and then it is the last call and `main` returns its value; when `build` returns
`false`, `main` ends with `reportFail`, returns its value, and does not call `infer`;
when `build` returns `true` and `infer` returns `false`, `main` ends with `reportFail`
and returns its value; a run that returns calls exactly one of `reportPass` and
`reportFail`; a run that does not return calls neither; and the run does not return
exactly when an asserted pointer is null. -/
def MainContract (layers : INetworkDefinition → Bool)
    (build : TensorRT → TrtExample → Run (Bool × TrtExample))
    (infer : TrtExample → Run Bool) (main : TensorRT → Logger → Run Int)
    (trt : TensorRT) (gLogger : Logger) : Prop :=
  (main trt gLogger).log.head? = some Event.reportTestStart
  ∧ (Event.reportPass ∈ (main trt gLogger).log ↔
      ∃ self1, (build trt ⟨none⟩).result = some (true, self1) ∧
        (infer self1).result = some true)
  ∧ (Event.reportPass ∈ (main trt gLogger).log →
      (main trt gLogger).result = some gLogger.reportPass ∧
      (main trt gLogger).log.getLast? = some Event.reportPass)
  ∧ (∀ self1, (build trt ⟨none⟩).result = some (false, self1) →
      (main trt gLogger).result = some gLogger.reportFail ∧
      (main trt gLogger).log.getLast? = some Event.reportFail ∧
      Event.infer ∉ (main trt gLogger).log)
  ∧ (∀ self1, (build trt ⟨none⟩).result = some (true, self1) →
      (infer self1).result = some false →
      (main trt gLogger).result = some gLogger.reportFail ∧
      (main trt gLogger).log.getLast? = some Event.reportFail)
  ∧ ((main trt gLogger).result.isSome = true → reportCount (main trt gLogger).log = 1)
  ∧ ((main trt gLogger).result = none → reportCount (main trt gLogger).log = 0)
  ∧ ((main trt gLogger).result = none ↔ assertFails layers trt = true)

/-! ### Facts about the arithmetic -/

theorem roundNat24_of_lt {n : Nat} (h : n < 2 ^ 24) : roundNat24 n = n := by
  unfold roundNat24
  rw [if_pos h]

theorem roundNat24_ge {n : Nat} (h : 2 ^ 24 ≤ n) : 2 ^ 24 ≤ roundNat24 n := by
  have hn0 : n ≠ 0 := by
    intro h0
    rw [h0] at h
    norm_num at h
  have hlog : 24 ≤ Nat.log2 n := (Nat.le_log2 hn0).2 h
  have hq : 2 ^ 23 ≤ n / 2 ^ (Nat.log2 n - 23) := by
    rw [Nat.le_div_iff_mul_le (by positivity)]
    rw [← pow_add]
    have : 23 + (Nat.log2 n - 23) = Nat.log2 n := by omega
    rw [this]
    exact Nat.log2_self_le hn0
  have hsh : 2 ≤ 2 ^ (Nat.log2 n - 23) := by
    calc 2 = 2 ^ 1 := by norm_num
      _ ≤ 2 ^ (Nat.log2 n - 23) := Nat.pow_le_pow_right (by norm_num) (by omega)
  have hlow : 2 ^ 24 ≤ n / 2 ^ (Nat.log2 n - 23) * 2 ^ (Nat.log2 n - 23) := by
    calc 2 ^ 24 = 2 ^ 23 * 2 := by norm_num
      _ ≤ n / 2 ^ (Nat.log2 n - 23) * 2 ^ (Nat.log2 n - 23) := Nat.mul_le_mul hq hsh
  have hup : n / 2 ^ (Nat.log2 n - 23) * 2 ^ (Nat.log2 n - 23)
      ≤ (n / 2 ^ (Nat.log2 n - 23) + 1) * 2 ^ (Nat.log2 n - 23) :=
    Nat.mul_le_mul_right _ (Nat.le_succ _)
  have hnot : ¬ n < 2 ^ 24 := by omega
  simp only [roundNat24, hnot, if_false]
  split_ifs <;> omega

theorem toFloat32_of_small {x : Int} (h : x.natAbs < 2 ^ 24) : toFloat32 x = x := by
  unfold toFloat32
  rw [roundNat24_of_lt h]
  exact Int.sign_mul_natAbs x

theorem toFloat32_natAbs_ge {x : Int} (h : 2 ^ 24 ≤ x.natAbs) :
    2 ^ 24 ≤ (toFloat32 x).natAbs := by
  have hx : x ≠ 0 := by
    intro h0
    rw [h0] at h
    norm_num at h
  unfold toFloat32
  rw [Int.natAbs_mul, Int.natAbs_sign_of_nonzero hx, one_mul, Int.natAbs_ofNat]
  exact roundNat24_ge h

/-- Rounding to `float` sends no integer but zero to zero. -/
theorem toFloat32_eq_zero_iff (x : Int) : toFloat32 x = 0 ↔ x = 0 := by
  by_cases h : x.natAbs < 2 ^ 24
  · rw [toFloat32_of_small h]
  · have h1 := toFloat32_natAbs_ge (not_lt.1 h)
    constructor
    · intro h0
      rw [h0] at h1
      norm_num at h1
    · intro h0
      rw [h0] at h
      norm_num at h

/-- Rounding to `float` sends no integer but `a` to `a`, when `a` is below `2^24` in
absolute value. -/
theorem toFloat32_eq_iff_of_small {a : Int} (ha : a.natAbs < 2 ^ 24) (x : Int) :
    toFloat32 x = a ↔ x = a := by
  by_cases h : x.natAbs < 2 ^ 24
  · rw [toFloat32_of_small h]
  · have h1 := toFloat32_natAbs_ge (not_lt.1 h)
    constructor
    · intro h0
      rw [h0] at h1
      omega
    · intro h0
      rw [h0] at h
      omega

theorem tolMain1b_pos : 0 < tolMain1b := by
  unfold tolMain1b
  norm_num

theorem tolMain1b_lt_one : tolMain1b < 1 := by
  unfold tolMain1b
  norm_num

theorem tolInt8act_pos : 0 < tolInt8act := by
  unfold tolInt8act
  norm_num

theorem tolInt8act_lt_one : tolInt8act < 1 := by
  unfold tolInt8act
  norm_num

/-- A tolerance strictly between `0` and `1` is exceeded by an integer exactly when the
integer is positive. -/
theorem tol_lt_intCast_iff {t : ℚ} (h0 : 0 < t) (h1 : t < 1) (d : Int) :
    t < (d : ℚ) ↔ 0 < d := by
  constructor
  · intro h
    have : (0 : ℚ) < (d : ℚ) := lt_trans h0 h
    exact_mod_cast this
  · intro h
    have : (1 : ℚ) ≤ (d : ℚ) := by exact_mod_cast h
    exact lt_of_lt_of_le h1 this

/-- A tolerance strictly between `0` and `1` is exceeded by the distance of two
integers exactly when they differ. -/
theorem tol_lt_dist_iff {t : ℚ} (h0 : 0 < t) (h1 : t < 1) (a b : Int) :
    t < |(a : ℚ) - (b : ℚ)| ↔ a ≠ b := by
  have hcast : |(a : ℚ) - (b : ℚ)| = ((|a - b| : Int) : ℚ) := by push_cast; rfl
  rw [hcast, tol_lt_intCast_iff h0 h1, abs_pos, sub_ne_zero]

/-- The test of `main1b.cpp` flags exactly the output values that differ from the
expected value, for every expected value below `2^24` in absolute value. -/
theorem exceedsMain1b_iff {e : Int} (he : e.natAbs < 2 ^ 24) (res : Int) :
    exceedsMain1b res e = true ↔ res ≠ e := by
  unfold exceedsMain1b subFloat32
  rw [decide_eq_true_iff, tol_lt_intCast_iff tolMain1b_pos tolMain1b_lt_one, abs_pos]
  rw [Ne, toFloat32_eq_zero_iff, sub_eq_zero, toFloat32_eq_iff_of_small he]

/-- The exact test flags exactly the pairs that differ. -/
theorem exceedsExact_iff (res e : Int) : exceedsExact res e = true ↔ res ≠ e := by
  unfold exceedsExact
  rw [decide_eq_true_iff, tol_lt_intCast_iff tolInt8act_pos tolInt8act_lt_one, abs_pos,
    sub_ne_zero]

/-- On a byte and an `int` whose difference is below `2^31`, the test of
`main1d_int8act.cpp` has a result, the one of the exact test. -/
theorem exceedsInt8act_of_lt {res e : Int} (hres : IsUInt8 res) (he : IsInt32 e)
    (h : res - e < 2 ^ 31) : exceedsInt8act res e = some (exceedsExact res e) := by
  unfold IsUInt8 at hres
  unfold IsInt32 at he
  have hlow : -2 ^ 31 < res - e := by
    norm_num at he ⊢
    omega
  have h1 : -2 ^ 31 ≤ res - e ∧ res - e < 2 ^ 31 := ⟨le_of_lt hlow, h⟩
  have h2 : |res - e| < 2 ^ 31 := abs_lt.2 ⟨hlow, h⟩
  unfold exceedsInt8act subInt32 absInt32 exceedsExact
  rw [if_pos h1]
  simp only
  rw [if_pos h2]

/-- A byte and an entry of the expected output of `main1d_int8act.cpp` never overflow. -/
theorem exceedsInt8act_expected (b : Int) (k : Nat)
    (hk : k < Main1dInt8act.expected_output.length) :
    exceedsInt8act (toUInt8 b) (Main1dInt8act.expected_output.getD k 0)
      = some (exceedsExact (toUInt8 b) (Main1dInt8act.expected_output.getD k 0)) := by
  have hb : IsUInt8 (toUInt8 b) := by
    unfold IsUInt8 toUInt8
    omega
  have hk4 : k < 4 := hk
  have he : IsInt32 (Main1dInt8act.expected_output.getD k 0) ∧
      toUInt8 b - Main1dInt8act.expected_output.getD k 0 < 2 ^ 31 := by
    unfold IsUInt8 at hb
    unfold IsInt32
    interval_cases k <;> simp [Main1dInt8act.expected_output] <;> omega
  exact exceedsInt8act_of_lt hb he.1 he.2

/-! ### Facts about the loops -/

/-- When every test of the loop has a result, the loop that allows for none runs as the
plain loop. -/
theorem checkedCompareLoop_of_defined (exceeds : Int → Int → Option Bool)
    (ex : Int → Int → Bool) (res : Nat → Int) (es : List Int) :
    ∀ (i : Nat) (correct : Bool),
      (∀ k, k < es.length →
        exceeds (res (i + k)) (es.getD k 0) = some (ex (res (i + k)) (es.getD k 0))) →
      checkedCompareLoop exceeds res i es correct =
        ⟨(compareLoop ex res i es correct).2, some (compareLoop ex res i es correct).1⟩ := by
  induction es with
  | nil => intro i correct _; rfl
  | cons e es ih =>
    intro i correct h
    have h0 := h 0 (by simp)
    rw [Nat.add_zero, List.getD_cons_zero] at h0
    have hrest : ∀ c, checkedCompareLoop exceeds res (i + 1) es c =
        ⟨(compareLoop ex res (i + 1) es c).2, some (compareLoop ex res (i + 1) es c).1⟩ := by
      intro c
      apply ih
      intro k hk
      have hk2 := h (k + 1) (by simpa using hk)
      have hidx : i + (k + 1) = i + 1 + k := by omega
      rw [hidx, List.getD_cons_succ] at hk2
      exact hk2
    unfold checkedCompareLoop compareLoop
    rw [h0]
    cases hx : ex (res i) e with
    | true => simp [hrest]
    | false => simp [hrest]

theorem compareLoop_fst (exceeds : Int → Int → Bool) (res : Nat → Int) (es : List Int) :
    ∀ (i : Nat) (correct : Bool),
      ((compareLoop exceeds res i es correct).1 = true ↔
        (correct = true ∧ ∀ k, k < es.length → exceeds (res (i + k)) (es.getD k 0) = false)) := by
  induction es with
  | nil => intro i correct; simp [compareLoop]
  | cons e es ih =>
    intro i correct
    unfold compareLoop
    by_cases hx : exceeds (res i) e = true
    · rw [if_pos hx]
      simp only [ih (i + 1) false]
      constructor
      · rintro ⟨h, _⟩
        exact absurd h (by decide)
      · rintro ⟨_, h⟩
        have h0 := h 0 (by simp)
        simp only [Nat.add_zero, List.getD_cons_zero] at h0
        rw [hx] at h0
        exact absurd h0 (by decide)
    · rw [if_neg hx]
      simp only [ih (i + 1) correct]
      constructor
      · rintro ⟨hc, h⟩
        refine ⟨hc, ?_⟩
        intro k hk
        cases k with
        | zero => simpa using hx
        | succ k =>
          have hk2 := h k (by simpa using hk)
          have hidx : i + (k + 1) = i + 1 + k := by omega
          rw [hidx]
          simpa using hk2
      · rintro ⟨hc, h⟩
        refine ⟨hc, ?_⟩
        intro k hk
        have hk2 := h (k + 1) (by simpa using hk)
        have hidx : i + (k + 1) = i + 1 + k := by omega
        rw [hidx] at hk2
        simpa using hk2

theorem compareLoop_indices (exceeds : Int → Int → Bool) (res : Nat → Int) (es : List Int) :
    ∀ (i : Nat) (correct : Bool),
      comparedIndices (compareLoop exceeds res i es correct).2 = List.range' i es.length := by
  induction es with
  | nil => intro i correct; simp [compareLoop, comparedIndices]
  | cons e es ih =>
    intro i correct
    unfold compareLoop
    split_ifs
    · have h := ih (i + 1) false
      unfold comparedIndices at h ⊢
      simp [List.filterMap_cons, Event.lineIndex, h, List.range'_succ]
    · have h := ih (i + 1) correct
      unfold comparedIndices at h ⊢
      simp [List.filterMap_cons, Event.lineIndex, h, List.range'_succ]

theorem compareLoop_written (exceeds : Int → Int → Bool) (res : Nat → Int) (es : List Int) :
    ∀ (i : Nat) (correct : Bool),
      writtenIndices (compareLoop exceeds res i es correct).2 = [] := by
  induction es with
  | nil => intro i correct; simp [compareLoop, writtenIndices]
  | cons e es ih =>
    intro i correct
    unfold compareLoop
    split_ifs
    · have h := ih (i + 1) false
      unfold writtenIndices at h ⊢
      simp [List.filterMap_cons, Event.inputIndex, h]
    · have h := ih (i + 1) correct
      unfold writtenIndices at h ⊢
      simp [List.filterMap_cons, Event.inputIndex, h]

theorem compareLoop_reportCount (exceeds : Int → Int → Bool) (res : Nat → Int) (es : List Int) :
    ∀ (i : Nat) (correct : Bool),
      reportCount (compareLoop exceeds res i es correct).2 = 0 := by
  induction es with
  | nil => intro i correct; simp [compareLoop, reportCount]
  | cons e es ih =>
    intro i correct
    unfold compareLoop
    split_ifs
    · have h := ih (i + 1) false
      unfold reportCount at h ⊢
      simp [List.countP_cons, Event.isReport, h]
    · have h := ih (i + 1) correct
      unfold reportCount at h ⊢
      simp [List.countP_cons, Event.isReport, h]

theorem inputLoop_written (store : Int → Int) (vs : List Int) :
    ∀ i : Nat, writtenIndices (inputLoop store i vs) = List.range' i vs.length := by
  induction vs with
  | nil => intro i; simp [inputLoop, writtenIndices]
  | cons v vs ih =>
    intro i
    have h := ih (i + 1)
    unfold writtenIndices at h ⊢
    simp [inputLoop, List.filterMap_cons, Event.inputIndex, h, List.range'_succ]

theorem inputLoop_compared (store : Int → Int) (vs : List Int) :
    ∀ i : Nat, comparedIndices (inputLoop store i vs) = [] := by
  induction vs with
  | nil => intro i; simp [inputLoop, comparedIndices]
  | cons v vs ih =>
    intro i
    have h := ih (i + 1)
    unfold comparedIndices at h ⊢
    simp [inputLoop, List.filterMap_cons, Event.lineIndex, h]

theorem inputLoop_reportCount (store : Int → Int) (vs : List Int) :
    ∀ i : Nat, reportCount (inputLoop store i vs) = 0 := by
  induction vs with
  | nil => intro i; simp [inputLoop, reportCount]
  | cons v vs ih =>
    intro i
    have h := ih (i + 1)
    unfold reportCount at h ⊢
    simp [inputLoop, List.countP_cons, Event.isReport, h]

theorem comparedIndices_append (a b : List Event) :
    comparedIndices (a ++ b) = comparedIndices a ++ comparedIndices b := by
  simp [comparedIndices, List.filterMap_append]

theorem writtenIndices_append (a b : List Event) :
    writtenIndices (a ++ b) = writtenIndices a ++ writtenIndices b := by
  simp [writtenIndices, List.filterMap_append]

theorem reportCount_append (a b : List Event) :
    reportCount (a ++ b) = reportCount a + reportCount b := by
  simp [reportCount, List.countP_append]

/-! ### Facts about `infer` -/

theorem main1b_infer_result_of_executed {engine : ICudaEngine} {context : IExecutionContext}
    (hctx : engine.createExecutionContext = some context) (hexec : context.executeV2 = true) :
    (Main1b.infer ⟨some engine⟩).result =
      some (compareLoop exceedsMain1b context.hostOutput 0 Main1b.expected_output true).1 := by
  simp [Main1b.infer, hctx, hexec]

theorem main1b_infer_log_of_executed {engine : ICudaEngine} {context : IExecutionContext}
    (hctx : engine.createExecutionContext = some context) (hexec : context.executeV2 = true) :
    (Main1b.infer ⟨some engine⟩).log =
      (if 0 < countInputs engine then
          inputLoop id 0 Main1b.values ++ [Event.copyInputToDevice] else [])
        ++ [Event.executeV2, Event.copyOutputToHost]
        ++ (compareLoop exceedsMain1b context.hostOutput 0 Main1b.expected_output true).2 := by
  simp [Main1b.infer, hctx, hexec]

/-- The verification loop of `main1d_int8act.cpp` on the bytes read from the output
buffer has every test defined, and runs as the plain loop with the exact test. -/
theorem int8act_checked_loop (context : IExecutionContext) :
    checkedCompareLoop exceedsInt8act (fun i => toUInt8 (context.hostOutput i)) 0
        Main1dInt8act.expected_output true =
      ⟨(compareLoop exceedsExact (fun i => toUInt8 (context.hostOutput i)) 0
          Main1dInt8act.expected_output true).2,
        some (compareLoop exceedsExact (fun i => toUInt8 (context.hostOutput i)) 0
          Main1dInt8act.expected_output true).1⟩ := by
  apply checkedCompareLoop_of_defined
  intro k hk
  exact exceedsInt8act_expected _ k hk

theorem int8act_infer_result_of_executed {engine : ICudaEngine}
    {context : IExecutionContext}
    (hctx : engine.createExecutionContext = some context) (hexec : context.executeV2 = true) :
    (Main1dInt8act.infer ⟨some engine⟩).result =
      some (compareLoop exceedsExact (fun i => toUInt8 (context.hostOutput i)) 0
        Main1dInt8act.expected_output true).1 := by
  simp [Main1dInt8act.infer, hctx, hexec, int8act_checked_loop]

theorem int8act_infer_log_of_executed {engine : ICudaEngine}
    {context : IExecutionContext}
    (hctx : engine.createExecutionContext = some context) (hexec : context.executeV2 = true) :
    (Main1dInt8act.infer ⟨some engine⟩).log =
      (if 0 < countInputs engine then
          inputLoop toUInt8 0 Main1dInt8act.values ++ [Event.copyInputToDevice] else [])
        ++ [Event.executeV2, Event.copyOutputToHost]
        ++ (compareLoop exceedsExact (fun i => toUInt8 (context.hostOutput i)) 0
          Main1dInt8act.expected_output true).2 := by
  simp [Main1dInt8act.infer, hctx, hexec, int8act_checked_loop]

/-- The events of `infer` that come before the verification loop read no output
element. -/
theorem comparedIndices_inputLog (store : Int → Int) (vs : List Int) (c : Prop)
    [Decidable c] :
    comparedIndices ((if c then inputLoop store 0 vs ++ [Event.copyInputToDevice] else [])
      ++ [Event.executeV2, Event.copyOutputToHost]) = [] := by
  split_ifs
  · rw [comparedIndices_append, comparedIndices_append, inputLoop_compared]
    simp [comparedIndices, Event.lineIndex]
  · simp [comparedIndices, Event.lineIndex]

/-- The verdict of the loop of `main1b.cpp` against the expected output of the program. -/
theorem main1b_compareLoop_iff (out : Nat → Int) :
    (compareLoop exceedsMain1b out 0 Main1b.expected_output true).1 = true ↔
      WithinTolerance (1 / 100000) out Main1b.expected_output := by
  rw [compareLoop_fst]
  unfold WithinTolerance
  simp only [true_and, Nat.zero_add]
  have key : ∀ k, k < Main1b.expected_output.length →
      (exceedsMain1b (out k) (Main1b.expected_output.getD k 0) = false ↔
        |(out k : ℚ) - (Main1b.expected_output.getD k 0 : ℚ)| ≤ 1 / 100000) := by
    intro k hk
    have hsmall : (Main1b.expected_output.getD k 0).natAbs < 2 ^ 24 := by
      have hk4 : k < 4 := hk
      interval_cases k <;> simp [Main1b.expected_output]
    rw [← not_lt, tol_lt_dist_iff (by norm_num) (by norm_num), ← exceedsMain1b_iff hsmall]
    simp
  constructor
  · intro h k hk
    exact (key k hk).1 (h k hk)
  · intro h k hk
    exact (key k hk).2 (h k hk)

/-- The verdict of the plain loop with the exact test against the expected output of
`main1d_int8act.cpp`. -/
theorem int8act_compareLoop_iff (out : Nat → Int) :
    (compareLoop exceedsExact out 0 Main1dInt8act.expected_output true).1 = true ↔
      WithinTolerance (25 / 1000) out Main1dInt8act.expected_output := by
  rw [compareLoop_fst]
  unfold WithinTolerance
  simp only [true_and, Nat.zero_add]
  have key : ∀ k, k < Main1dInt8act.expected_output.length →
      (exceedsExact (out k) (Main1dInt8act.expected_output.getD k 0) = false ↔
        |(out k : ℚ) - (Main1dInt8act.expected_output.getD k 0 : ℚ)| ≤ 25 / 1000) := by
    intro k _
    rw [← not_lt, tol_lt_dist_iff (by norm_num) (by norm_num), ← Bool.not_eq_true,
      exceedsExact_iff]
  constructor
  · intro h k hk
    exact (key k hk).1 (h k hk)
  · intro h k hk
    exact (key k hk).2 (h k hk)

/-- Reading bytes through a `uint8_t` pointer changes nothing when the buffer holds
bytes. -/
theorem withinTolerance_toUInt8 {tol : ℚ} {out : Nat → Int} {expected : List Int}
    (hlen : expected.length = 4) (hout : ∀ i, i < 4 → IsUInt8 (out i)) :
    WithinTolerance tol (fun i => toUInt8 (out i)) expected ↔
      WithinTolerance tol out expected := by
  have hbyte : ∀ i, i < 4 → toUInt8 (out i) = out i := by
    intro i hi
    have h := hout i hi
    unfold IsUInt8 at h
    unfold toUInt8
    omega
  unfold WithinTolerance
  constructor
  · intro h i hi
    have h2 := h i hi
    simp only at h2
    rw [hbyte i (hlen ▸ hi)] at h2
    exact h2
  · intro h i hi
    simp only
    rw [hbyte i (hlen ▸ hi)]
    exact h i hi

theorem comparedIndices_inputOnly (store : Int → Int) (vs : List Int) (c : Prop)
    [Decidable c] :
    comparedIndices (if c then inputLoop store 0 vs ++ [Event.copyInputToDevice] else [])
      = [] := by
  split_ifs
  · rw [comparedIndices_append, inputLoop_compared]
    simp [comparedIndices, Event.lineIndex]
  · simp [comparedIndices]

/-- A log that reads no output element has no line of the verification loop. -/
theorem no_line_of_comparedIndices_nil {log pre post : List Event} {ev : Event}
    (hnil : comparedIndices log = []) (hsplit : log = pre ++ ev :: post)
    (hev : ev.lineIndex.isSome = true) : False := by
  rw [hsplit] at hnil
  unfold comparedIndices at hnil
  rw [List.filterMap_eq_nil_iff] at hnil
  have h := hnil ev (by simp)
  rw [h] at hev
  simp at hev

/-- In a log made of a part that reads no output element followed by anything, every
event of the first part comes before every line of the verification loop. -/
theorem mem_before_line {x ev : Event} :
    ∀ (A L pre post : List Event), comparedIndices A = [] → x ∈ A →
      A ++ L = pre ++ ev :: post → ev.lineIndex.isSome = true → x ∈ pre := by
  intro A
  induction A with
  | nil => intro L pre post _ hx; simp at hx
  | cons a A ih =>
    intro L pre post hA hx hsplit hev
    have ha : a.lineIndex = none ∧ comparedIndices A = [] := by
      unfold comparedIndices at hA ⊢
      rw [List.filterMap_eq_nil_iff] at hA ⊢
      exact ⟨hA a (by simp), fun b hb => hA b (by simp [hb])⟩
    cases pre with
    | nil =>
      simp only [List.nil_append, List.cons_append, List.cons.injEq] at hsplit
      rw [← hsplit.1, ha.1] at hev
      simp at hev
    | cons p pre =>
      simp only [List.cons_append, List.cons.injEq] at hsplit
      rcases List.mem_cons.1 hx with hxa | hxA
      · rw [hxa, hsplit.1]
        simp
      · exact List.mem_cons_of_mem _ (ih L pre post ha.2 hxA hsplit.2 hev)

theorem main1b_failurePaths (self : TrtExample) : FailurePaths Main1b.infer self := by
  obtain ⟨mEngine⟩ := self
  cases mEngine with
  | none =>
    refine ⟨fun engine h => by simp at h, fun engine context h => by simp at h, ?_⟩
    intro pre ev post hlog
    simp [Main1b.infer] at hlog
  | some engine =>
    cases hctx : engine.createExecutionContext with
    | none =>
      refine ⟨fun e he _ => ?_, fun e c he hc => ?_, ?_⟩
      · simp [Main1b.infer, hctx, comparedIndices]
      · simp only [Option.some.injEq] at he
        rw [← he, hctx] at hc
        simp at hc
      · intro pre ev post hlog
        simp [Main1b.infer, hctx] at hlog
    | some context =>
      cases hexec : context.executeV2 with
      | false =>
        have hnil : comparedIndices (Main1b.infer ⟨some engine⟩).log = [] := by
          simp only [Main1b.infer, hctx, hexec]
          rw [show (!false) = true from rfl, if_pos rfl, comparedIndices_append,
            comparedIndices_inputOnly]
          simp [comparedIndices, Event.lineIndex]
        refine ⟨fun e he hc => ?_, fun e c _ _ _ => ⟨?_, hnil⟩, ?_⟩
        · simp only [Option.some.injEq] at he
          rw [← he, hctx] at hc
          simp at hc
        · simp [Main1b.infer, hctx, hexec]
        · intro pre ev post hlog hev
          exact (no_line_of_comparedIndices_nil hnil hlog hev).elim
      | true =>
        refine ⟨fun e he hc => ?_, fun e c he hc hx => ?_, ?_⟩
        · simp only [Option.some.injEq] at he
          rw [← he, hctx] at hc
          simp at hc
        · simp only [Option.some.injEq] at he
          rw [← he, hctx] at hc
          simp only [Option.some.injEq] at hc
          rw [← hc, hexec] at hx
          simp at hx
        · intro pre ev post hlog hev
          rw [main1b_infer_log_of_executed hctx hexec] at hlog
          refine ⟨⟨engine, context, rfl, hctx, hexec⟩, ?_, ?_⟩
          · exact mem_before_line _ _ pre post (comparedIndices_inputLog _ _ _)
              (by simp) hlog hev
          · exact mem_before_line _ _ pre post (comparedIndices_inputLog _ _ _)
              (by simp) hlog hev

theorem int8act_failurePaths (self : TrtExample) :
    FailurePaths Main1dInt8act.infer self := by
  obtain ⟨mEngine⟩ := self
  cases mEngine with
  | none =>
    refine ⟨fun engine h => by simp at h, fun engine context h => by simp at h, ?_⟩
    intro pre ev post hlog
    simp [Main1dInt8act.infer] at hlog
  | some engine =>
    cases hctx : engine.createExecutionContext with
    | none =>
      refine ⟨fun e he _ => ?_, fun e c he hc => ?_, ?_⟩
      · simp [Main1dInt8act.infer, hctx, comparedIndices]
      · simp only [Option.some.injEq] at he
        rw [← he, hctx] at hc
        simp at hc
      · intro pre ev post hlog
        simp [Main1dInt8act.infer, hctx] at hlog
    | some context =>
      cases hexec : context.executeV2 with
      | false =>
        have hnil : comparedIndices (Main1dInt8act.infer ⟨some engine⟩).log = [] := by
          simp only [Main1dInt8act.infer, hctx, hexec]
          rw [show (!false) = true from rfl, if_pos rfl, comparedIndices_append,
            comparedIndices_inputOnly]
          simp [comparedIndices, Event.lineIndex]
        refine ⟨fun e he hc => ?_, fun e c _ _ _ => ⟨?_, hnil⟩, ?_⟩
        · simp only [Option.some.injEq] at he
          rw [← he, hctx] at hc
          simp at hc
        · simp [Main1dInt8act.infer, hctx, hexec]
        · intro pre ev post hlog hev
          exact (no_line_of_comparedIndices_nil hnil hlog hev).elim
      | true =>
        refine ⟨fun e he hc => ?_, fun e c he hc hx => ?_, ?_⟩
        · simp only [Option.some.injEq] at he
          rw [← he, hctx] at hc
          simp at hc
        · simp only [Option.some.injEq] at he
          rw [← he, hctx] at hc
          simp only [Option.some.injEq] at hc
          rw [← hc, hexec] at hx
          simp at hx
        · intro pre ev post hlog hev
          rw [int8act_infer_log_of_executed hctx hexec] at hlog
          refine ⟨⟨engine, context, rfl, hctx, hexec⟩, ?_, ?_⟩
          · exact mem_before_line _ _ pre post (comparedIndices_inputLog _ _ _)
              (by simp) hlog hev
          · exact mem_before_line _ _ pre post (comparedIndices_inputLog _ _ _)
              (by simp) hlog hev

theorem writtenIndices_inputOnly (store : Int → Int) (vs : List Int) (c : Prop)
    [Decidable c] :
    writtenIndices (if c then inputLoop store 0 vs ++ [Event.copyInputToDevice] else [])
      = [] ∨
    writtenIndices (if c then inputLoop store 0 vs ++ [Event.copyInputToDevice] else [])
      = List.range vs.length := by
  split_ifs
  · right
    rw [writtenIndices_append, inputLoop_written, List.range_eq_range']
    simp [writtenIndices, Event.inputIndex]
  · left
    simp [writtenIndices]

theorem main1b_infer_indices (self : TrtExample) :
    (writtenIndices (Main1b.infer self).log = [] ∨
      writtenIndices (Main1b.infer self).log = List.range Main1b.values.length)
    ∧ (comparedIndices (Main1b.infer self).log = [] ∨
      comparedIndices (Main1b.infer self).log = [0, 1, 2, 3]) := by
  obtain ⟨mEngine⟩ := self
  cases mEngine with
  | none => simp [Main1b.infer, writtenIndices, comparedIndices]
  | some engine =>
    cases hctx : engine.createExecutionContext with
    | none => simp [Main1b.infer, hctx, writtenIndices, comparedIndices]
    | some context =>
      cases hexec : context.executeV2 with
      | false =>
        have hlog : (Main1b.infer ⟨some engine⟩).log =
            (if 0 < countInputs engine then
              inputLoop id 0 Main1b.values ++ [Event.copyInputToDevice] else [])
            ++ [Event.executeV2] := by
          simp [Main1b.infer, hctx, hexec]
        rw [hlog, writtenIndices_append, comparedIndices_append, comparedIndices_inputOnly]
        have hw : writtenIndices [Event.executeV2] = [] := rfl
        have hc : comparedIndices [Event.executeV2] = [] := rfl
        rw [hw, hc, List.append_nil]
        exact ⟨writtenIndices_inputOnly _ _ _, Or.inl rfl⟩
      | true =>
        rw [main1b_infer_log_of_executed hctx hexec, writtenIndices_append,
          writtenIndices_append, comparedIndices_append, comparedIndices_inputLog,
          compareLoop_indices, compareLoop_written]
        have hw : writtenIndices [Event.executeV2, Event.copyOutputToHost] = [] := rfl
        rw [hw, List.append_nil, List.append_nil]
        exact ⟨writtenIndices_inputOnly _ _ _, Or.inr rfl⟩

theorem int8act_infer_indices (self : TrtExample) :
    (writtenIndices (Main1dInt8act.infer self).log = [] ∨
      writtenIndices (Main1dInt8act.infer self).log
        = List.range Main1dInt8act.values.length)
    ∧ (comparedIndices (Main1dInt8act.infer self).log = [] ∨
      comparedIndices (Main1dInt8act.infer self).log = [0, 1, 2, 3]) := by
  obtain ⟨mEngine⟩ := self
  cases mEngine with
  | none => simp [Main1dInt8act.infer, writtenIndices, comparedIndices]
  | some engine =>
    cases hctx : engine.createExecutionContext with
    | none => simp [Main1dInt8act.infer, hctx, writtenIndices, comparedIndices]
    | some context =>
      cases hexec : context.executeV2 with
      | false =>
        have hlog : (Main1dInt8act.infer ⟨some engine⟩).log =
            (if 0 < countInputs engine then
              inputLoop toUInt8 0 Main1dInt8act.values ++ [Event.copyInputToDevice] else [])
            ++ [Event.executeV2] := by
          simp [Main1dInt8act.infer, hctx, hexec]
        rw [hlog, writtenIndices_append, comparedIndices_append, comparedIndices_inputOnly]
        have hw : writtenIndices [Event.executeV2] = [] := rfl
        have hc : comparedIndices [Event.executeV2] = [] := rfl
        rw [hw, hc, List.append_nil]
        exact ⟨writtenIndices_inputOnly _ _ _, Or.inl rfl⟩
      | true =>
        rw [int8act_infer_log_of_executed hctx hexec, writtenIndices_append,
          writtenIndices_append, comparedIndices_append, comparedIndices_inputLog,
          compareLoop_indices, compareLoop_written]
        have hw : writtenIndices [Event.executeV2, Event.copyOutputToHost] = [] := rfl
        rw [hw, List.append_nil, List.append_nil]
        exact ⟨writtenIndices_inputOnly _ _ _, Or.inr rfl⟩

/-- Bounds on the indices follow from the two shapes a list of indices can have. -/
theorem accessesInBounds_of_indices {infer : TrtExample → Run Bool} {values : List Int}
    {inputDims outputDims : Dims} (hlen : (values.length : Int) = volume inputDims)
    (hout : (4 : Int) ≤ volume outputDims)
    (h : ∀ self : TrtExample,
      (writtenIndices (infer self).log = [] ∨
        writtenIndices (infer self).log = List.range values.length)
      ∧ (comparedIndices (infer self).log = [] ∨
        comparedIndices (infer self).log = [0, 1, 2, 3])) :
    AccessesInBounds infer values inputDims outputDims := by
  refine ⟨hlen, fun self => ⟨(h self).1, ?_, ?_⟩⟩
  · intro i hi
    rcases (h self).1 with h0 | h1
    · rw [h0] at hi
      simp at hi
    · rw [h1, List.mem_range] at hi
      rw [← hlen]
      exact_mod_cast hi
  · intro i hi
    rcases (h self).2 with h0 | h1
    · rw [h0] at hi
      simp at hi
    · rw [h1] at hi
      have hi4 : i < 4 := by
        simp only [List.mem_cons, List.mem_singleton, List.not_mem_nil, or_false] at hi
        omega
      have : (i : Int) < 4 := by exact_mod_cast hi4
      omega

/-- The test of `main1d_int8act.cpp` on two equal values has a result, and does not flag
them. -/
theorem exceedsInt8act_self (x : Int) : exceedsInt8act x x = some false := by
  have h1 : -2 ^ 31 ≤ x - x ∧ x - x < 2 ^ 31 := by
    rw [sub_self]
    norm_num
  have h2 : |x - x| < (2 : Int) ^ 31 := by
    rw [sub_self, abs_zero]
    norm_num
  unfold exceedsInt8act subInt32 absInt32
  rw [if_pos h1]
  simp only
  rw [if_pos h2]
  simp only [sub_self, abs_zero, Int.cast_zero, Option.some.injEq, decide_eq_false_iff_not,
    not_lt]
  exact tolInt8act_pos.le

/-! ### Facts about `build` and `main` -/

theorem main1b_infer_returns {self : TrtExample} (h : self.mEngine.isSome = true) :
    (Main1b.infer self).result.isSome = true := by
  obtain ⟨mEngine⟩ := self
  cases mEngine with
  | none => simp at h
  | some engine =>
    cases hctx : engine.createExecutionContext with
    | none => simp [Main1b.infer, hctx]
    | some context =>
      cases hexec : context.executeV2 <;> simp [Main1b.infer, hctx, hexec]

theorem int8act_infer_returns {self : TrtExample} (h : self.mEngine.isSome = true) :
    (Main1dInt8act.infer self).result.isSome = true := by
  obtain ⟨mEngine⟩ := self
  cases mEngine with
  | none => simp at h
  | some engine =>
    cases hctx : engine.createExecutionContext with
    | none => simp [Main1dInt8act.infer, hctx]
    | some context =>
      cases hexec : context.executeV2 with
      | false => simp [Main1dInt8act.infer, hctx, hexec]
      | true =>
        rw [int8act_infer_result_of_executed hctx hexec]
        rfl

theorem main1b_build_log (trt : TensorRT) (self : TrtExample) :
    (Main1b.build trt self).log = [] := by
  cases h1 : trt.createInferBuilder with
  | none => simp [Main1b.build, h1]
  | some builder =>
    cases h2 : builder.createNetworkV2 with
    | none => simp [Main1b.build, h1, h2]
    | some network =>
      cases h3 : builder.createBuilderConfig <;> cases h4 : network.addInput <;>
        cases h5 : network.addShape <;> cases h6 : network.addUnary <;>
        cases h7 : builder.buildEngineWithConfig <;>
        simp [Main1b.build, Main1b.constructNetwork, h1, h2, h3, h4, h5, h6, h7]

theorem int8act_build_log (trt : TensorRT) (self : TrtExample) :
    (Main1dInt8act.build trt self).log = [] := by
  cases h1 : trt.createInferBuilder with
  | none => simp [Main1dInt8act.build, h1]
  | some builder =>
    cases h2 : builder.createNetworkV2 with
    | none => simp [Main1dInt8act.build, h1, h2]
    | some network =>
      cases h3 : builder.createBuilderConfig <;> cases h4 : network.addInput <;>
        cases h5 : network.addActivation <;> cases h6 : network.addIdentity <;>
        cases h7 : builder.buildEngineWithConfig <;>
        simp [Main1dInt8act.build, Main1dInt8act.constructNetwork, h1, h2, h3, h4, h5, h6, h7]

theorem main1b_buildContract (trt : TensorRT) (self : TrtExample) :
    BuildContract Main1b.layers Main1b.build Main1b.infer trt self := by
  have hinf := @main1b_infer_returns
  unfold BuildContract
  cases h1 : trt.createInferBuilder with
  | none => simp [Main1b.build, handlesNonNull, assertFails, h1]
  | some builder =>
    cases h2 : builder.createNetworkV2 with
    | none => simp [Main1b.build, handlesNonNull, assertFails, h1, h2]
    | some network =>
      cases h3 : builder.createBuilderConfig <;> cases h4 : network.addInput <;>
        cases h5 : network.addShape <;> cases h6 : network.addUnary <;>
        cases h7 : builder.buildEngineWithConfig <;>
        simp [Main1b.build, Main1b.constructNetwork, handlesNonNull, assertFails,
          Main1b.layers, h1, h2, h3, h4, h5, h6, h7]
      exact hinf rfl

theorem int8act_buildContract (trt : TensorRT) (self : TrtExample) :
    BuildContract Main1dInt8act.layers Main1dInt8act.build Main1dInt8act.infer trt self := by
  have hinf := @int8act_infer_returns
  unfold BuildContract
  cases h1 : trt.createInferBuilder with
  | none => simp [Main1dInt8act.build, handlesNonNull, assertFails, h1]
  | some builder =>
    cases h2 : builder.createNetworkV2 with
    | none => simp [Main1dInt8act.build, handlesNonNull, assertFails, h1, h2]
    | some network =>
      cases h3 : builder.createBuilderConfig <;> cases h4 : network.addInput <;>
        cases h5 : network.addActivation <;> cases h6 : network.addIdentity <;>
        cases h7 : builder.buildEngineWithConfig <;>
        simp [Main1dInt8act.build, Main1dInt8act.constructNetwork, handlesNonNull, assertFails,
          Main1dInt8act.layers, h1, h2, h3, h4, h5, h6, h7]
      exact hinf rfl

theorem getLast_cons_concat (a x : Event) (l : List Event) :
    (a :: (l ++ [x])).getLast? = some x := by
  rw [← List.cons_append]
  exact List.getLast?_concat _

theorem main1b_infer_reportCount (self : TrtExample) :
    reportCount (Main1b.infer self).log = 0 := by
  obtain ⟨mEngine⟩ := self
  cases mEngine with
  | none => simp [Main1b.infer, reportCount]
  | some engine =>
    cases hctx : engine.createExecutionContext with
    | none => simp [Main1b.infer, hctx, reportCount]
    | some context =>
      have hin : reportCount (if 0 < countInputs engine then
          inputLoop id 0 Main1b.values ++ [Event.copyInputToDevice] else []) = 0 := by
        split_ifs
        · rw [reportCount_append, inputLoop_reportCount]
          rfl
        · rfl
      cases hexec : context.executeV2 with
      | false =>
        have hlog : (Main1b.infer ⟨some engine⟩).log =
            (if 0 < countInputs engine then
              inputLoop id 0 Main1b.values ++ [Event.copyInputToDevice] else [])
            ++ [Event.executeV2] := by
          simp [Main1b.infer, hctx, hexec]
        rw [hlog, reportCount_append, hin]
        rfl
      | true =>
        rw [main1b_infer_log_of_executed hctx hexec, reportCount_append, reportCount_append,
          hin, compareLoop_reportCount]
        rfl

theorem main1b_infer_not_report (self : TrtExample) :
    Event.reportPass ∉ (Main1b.infer self).log := by
  intro hmem
  have h := main1b_infer_reportCount self
  unfold reportCount at h
  rw [List.countP_eq_zero] at h
  have := h Event.reportPass hmem
  simp [Event.isReport] at this

theorem main1b_mainContract (trt : TensorRT) (gLogger : Logger) :
    MainContract Main1b.layers Main1b.build Main1b.infer Main1b.main trt gLogger := by
  have hb := main1b_buildContract trt ⟨none⟩
  have hblog := main1b_build_log trt ⟨none⟩
  unfold BuildContract at hb
  obtain ⟨hnone, -, -, hengine⟩ := hb
  unfold MainContract
  cases hres : (Main1b.build trt ⟨none⟩).result with
  | none =>
    have hfail := hnone.1 hres
    have hmain : Main1b.main trt gLogger = ⟨[Event.reportTestStart, Event.build], none⟩ := by
      simp [Main1b.main, hres, hblog]
    rw [hmain, hfail]
    simp [reportCount, Event.isReport]
  | some pair =>
    obtain ⟨b, self1⟩ := pair
    have hok : assertFails Main1b.layers trt = false := by
      cases hf : assertFails Main1b.layers trt with
      | false => rfl
      | true =>
        rw [hnone.2 hf] at hres
        simp at hres
    cases b with
    | false =>
      have hmain : Main1b.main trt gLogger =
          ⟨[Event.reportTestStart, Event.build, Event.reportFail],
            some gLogger.reportFail⟩ := by
        simp [Main1b.main, hres, hblog]
      rw [hmain, hok]
      simp [reportCount, Event.isReport]
    | true =>
      have hret := (hengine self1 hres).2
      have hcount := main1b_infer_reportCount self1
      have hnot := main1b_infer_not_report self1
      cases hinf : (Main1b.infer self1).result with
      | none =>
        rw [hinf] at hret
        simp at hret
      | some v =>
        cases v with
        | false =>
          have hmain : Main1b.main trt gLogger =
              ⟨[Event.reportTestStart, Event.build, Event.infer] ++ (Main1b.infer self1).log
                ++ [Event.reportFail], some gLogger.reportFail⟩ := by
            simp [Main1b.main, hres, hblog, hinf]
          rw [hmain, hok]
          refine ⟨rfl, ?_, ?_, ?_, ?_, ?_, ?_, ?_⟩
          · simp [hnot, hinf]
          · simp [hnot]
          · simp
          · simp [getLast_cons_concat]
          · intro _
            rw [reportCount_append, reportCount_append, hcount]
            rfl
          · simp
          · simp
        | true =>
          have hmain : Main1b.main trt gLogger =
              ⟨[Event.reportTestStart, Event.build, Event.infer] ++ (Main1b.infer self1).log
                ++ [Event.reportPass], some gLogger.reportPass⟩ := by
            simp [Main1b.main, hres, hblog, hinf]
          rw [hmain, hok]
          refine ⟨rfl, ?_, ?_, ?_, ?_, ?_, ?_, ?_⟩
          · simp [hinf]
          · simp [getLast_cons_concat]
          · simp
          · simp [hinf]
          · intro _
            rw [reportCount_append, reportCount_append, hcount]
            rfl
          · simp
          · simp

theorem int8act_infer_reportCount (self : TrtExample) :
    reportCount (Main1dInt8act.infer self).log = 0 := by
  obtain ⟨mEngine⟩ := self
  cases mEngine with
  | none => simp [Main1dInt8act.infer, reportCount]
  | some engine =>
    cases hctx : engine.createExecutionContext with
    | none => simp [Main1dInt8act.infer, hctx, reportCount]
    | some context =>
      have hin : reportCount (if 0 < countInputs engine then
          inputLoop toUInt8 0 Main1dInt8act.values ++ [Event.copyInputToDevice] else []) = 0 := by
        split_ifs
        · rw [reportCount_append, inputLoop_reportCount]
          rfl
        · rfl
      cases hexec : context.executeV2 with
      | false =>
        have hlog : (Main1dInt8act.infer ⟨some engine⟩).log =
            (if 0 < countInputs engine then
              inputLoop toUInt8 0 Main1dInt8act.values ++ [Event.copyInputToDevice] else [])
            ++ [Event.executeV2] := by
          simp [Main1dInt8act.infer, hctx, hexec]
        rw [hlog, reportCount_append, hin]
        rfl
      | true =>
        rw [int8act_infer_log_of_executed hctx hexec, reportCount_append, reportCount_append,
          hin, compareLoop_reportCount]
        rfl

theorem int8act_infer_not_report (self : TrtExample) :
    Event.reportPass ∉ (Main1dInt8act.infer self).log := by
  intro hmem
  have h := int8act_infer_reportCount self
  unfold reportCount at h
  rw [List.countP_eq_zero] at h
  have := h Event.reportPass hmem
  simp [Event.isReport] at this

theorem int8act_mainContract (trt : TensorRT) (gLogger : Logger) :
    MainContract Main1dInt8act.layers Main1dInt8act.build Main1dInt8act.infer Main1dInt8act.main trt gLogger := by
  have hb := int8act_buildContract trt ⟨none⟩
  have hblog := int8act_build_log trt ⟨none⟩
  unfold BuildContract at hb
  obtain ⟨hnone, -, -, hengine⟩ := hb
  unfold MainContract
  cases hres : (Main1dInt8act.build trt ⟨none⟩).result with
  | none =>
    have hfail := hnone.1 hres
    have hmain : Main1dInt8act.main trt gLogger = ⟨[Event.reportTestStart, Event.build], none⟩ := by
      simp [Main1dInt8act.main, hres, hblog]
    rw [hmain, hfail]
    simp [reportCount, Event.isReport]
  | some pair =>
    obtain ⟨b, self1⟩ := pair
    have hok : assertFails Main1dInt8act.layers trt = false := by
      cases hf : assertFails Main1dInt8act.layers trt with
      | false => rfl
      | true =>
        rw [hnone.2 hf] at hres
        simp at hres
    cases b with
    | false =>
      have hmain : Main1dInt8act.main trt gLogger =
          ⟨[Event.reportTestStart, Event.build, Event.reportFail],
            some gLogger.reportFail⟩ := by
        simp [Main1dInt8act.main, hres, hblog]
      rw [hmain, hok]
      simp [reportCount, Event.isReport]
    | true =>
      have hret := (hengine self1 hres).2
      have hcount := int8act_infer_reportCount self1
      have hnot := int8act_infer_not_report self1
      cases hinf : (Main1dInt8act.infer self1).result with
      | none =>
        rw [hinf] at hret
        simp at hret
      | some v =>
        cases v with
        | false =>
          have hmain : Main1dInt8act.main trt gLogger =
              ⟨[Event.reportTestStart, Event.build, Event.infer] ++ (Main1dInt8act.infer self1).log
                ++ [Event.reportFail], some gLogger.reportFail⟩ := by
            simp [Main1dInt8act.main, hres, hblog, hinf]
          rw [hmain, hok]
          refine ⟨rfl, ?_, ?_, ?_, ?_, ?_, ?_, ?_⟩
          · simp [hnot, hinf]
          · simp [hnot]
          · simp
          · simp [getLast_cons_concat]
          · intro _
            rw [reportCount_append, reportCount_append, hcount]
            rfl
          · simp
          · simp
        | true =>
          have hmain : Main1dInt8act.main trt gLogger =
              ⟨[Event.reportTestStart, Event.build, Event.infer] ++ (Main1dInt8act.infer self1).log
                ++ [Event.reportPass], some gLogger.reportPass⟩ := by
            simp [Main1dInt8act.main, hres, hblog, hinf]
          rw [hmain, hok]
          refine ⟨rfl, ?_, ?_, ?_, ?_, ?_, ?_, ?_⟩
          · simp [hinf]
          · simp [getLast_cons_concat]
          · simp
          · simp [hinf]
          · intro _
            rw [reportCount_append, reportCount_append, hcount]
            rfl
          · simp
          · simp

/-! ### The two comparison loops side by side -/

/-- C1: in both programs, once the execution context has been created and the engine
has executed successfully, `infer` returns, and it returns `true` exactly when each of
the four values read from the host output buffer is within the tolerance of the program
(`0.00001` in `main1b.cpp`, `0.025` in `main1d_int8act.cpp`) of the expected value at
the same index, and `false` exactly when one of them is not; the loop reads the four
indices `0, 1, 2, 3` whatever the values are.  The values read are any `int`s in
`main1b.cpp` and any bytes in `main1d_int8act.cpp`. -/
theorem infer_verdict (engine : ICudaEngine) (context : IExecutionContext)
    (hctx : engine.createExecutionContext = some context)
    (hexec : context.executeV2 = true) :
    (((Main1b.infer ⟨some engine⟩).result = some true ↔
          WithinTolerance (1 / 100000) context.hostOutput Main1b.expected_output)
      ∧ ((Main1b.infer ⟨some engine⟩).result = some false ↔
          ¬ WithinTolerance (1 / 100000) context.hostOutput Main1b.expected_output)
      ∧ comparedIndices (Main1b.infer ⟨some engine⟩).log = [0, 1, 2, 3])
    ∧ ((∀ i, i < 4 → IsUInt8 (context.hostOutput i)) →
        ((Main1dInt8act.infer ⟨some engine⟩).result = some true ↔
            WithinTolerance (25 / 1000) context.hostOutput Main1dInt8act.expected_output)
        ∧ ((Main1dInt8act.infer ⟨some engine⟩).result = some false ↔
            ¬ WithinTolerance (25 / 1000) context.hostOutput Main1dInt8act.expected_output)
        ∧ comparedIndices (Main1dInt8act.infer ⟨some engine⟩).log = [0, 1, 2, 3]) := by
  refine ⟨⟨?_, ?_, ?_⟩, fun hout => ⟨?_, ?_, ?_⟩⟩
  · rw [main1b_infer_result_of_executed hctx hexec, Option.some_inj,
      main1b_compareLoop_iff]
  · rw [main1b_infer_result_of_executed hctx hexec, Option.some_inj,
      ← main1b_compareLoop_iff, Bool.not_eq_true]
  · rw [main1b_infer_log_of_executed hctx hexec, comparedIndices_append,
      comparedIndices_inputLog, compareLoop_indices]
    rfl
  · have hlen : Main1dInt8act.expected_output.length = 4 := rfl
    rw [int8act_infer_result_of_executed hctx hexec, Option.some_inj,
      int8act_compareLoop_iff, withinTolerance_toUInt8 hlen hout]
  · have hlen : Main1dInt8act.expected_output.length = 4 := rfl
    rw [int8act_infer_result_of_executed hctx hexec, Option.some_inj,
      ← withinTolerance_toUInt8 hlen hout, ← int8act_compareLoop_iff, Bool.not_eq_true]
  · rw [int8act_infer_log_of_executed hctx hexec, comparedIndices_append,
      comparedIndices_inputLog, compareLoop_indices]
    rfl

/-- The hypotheses of `infer_verdict` hold for an engine that leaves `0, 0, 1, 2` in the
output buffer: the INT8 program accepts it and the shape program rejects it. -/
theorem infer_verdict_witness :
    ((engineWithOutput [0, 0, 1, 2]).createExecutionContext
        = some (contextWithOutput [0, 0, 1, 2])
      ∧ (contextWithOutput [0, 0, 1, 2]).executeV2 = true)
    ∧ (((Main1dInt8act.infer ⟨some (engineWithOutput [0, 0, 1, 2])⟩).result = some true ↔
          WithinTolerance (25 / 1000) (contextWithOutput [0, 0, 1, 2]).hostOutput
            Main1dInt8act.expected_output)
      ∧ comparedIndices (Main1b.infer ⟨some (engineWithOutput [0, 0, 1, 2])⟩).log
          = [0, 1, 2, 3]) :=
  have h := infer_verdict (engineWithOutput [0, 0, 1, 2]) (contextWithOutput [0, 0, 1, 2])
    rfl rfl
  have hbytes : ∀ i, i < 4 → IsUInt8 ((contextWithOutput [0, 0, 1, 2]).hostOutput i) := by
    intro i hi
    unfold IsUInt8 contextWithOutput
    interval_cases i <;> simp
  ⟨⟨rfl, rfl⟩, (h.2 hbytes).1, h.1.2.2⟩

/-- C2, as the code has it: in both programs `main` starts with `reportTestStart`; it
calls `reportPass` and returns its value exactly when `build` returned `true` and
`infer` then returned `true`; when `build` returns `false` it returns the value of
`reportFail` and never calls `infer`; when `build` returns `true` and `infer` returns
`false` it returns the value of `reportFail`; on every run that returns, exactly one of
`reportPass` and `reportFail` is called, as the last call; and a run in which a pointer
asserted by `constructNetwork` is null does not return and calls neither. -/
theorem main_contract (trt : TensorRT) (gLogger : Logger) :
    MainContract Main1b.layers Main1b.build Main1b.infer Main1b.main trt gLogger
    ∧ MainContract Main1dInt8act.layers Main1dInt8act.build Main1dInt8act.infer
        Main1dInt8act.main trt gLogger :=
  ⟨main1b_mainContract trt gLogger, int8act_mainContract trt gLogger⟩

/-- C2 as stated fails: on the run in which `addInput` returns a null pointer, `main`
calls `reportTestStart` and `build` and then stops, so that neither `reportPass` nor
`reportFail` is called, in either program. -/
theorem main_no_report_when_assert_fails :
    (Main1b.main trtNullInput exitCodeLogger).log = [Event.reportTestStart, Event.build]
    ∧ reportCount (Main1b.main trtNullInput exitCodeLogger).log = 0
    ∧ (Main1b.main trtNullInput exitCodeLogger).result = none
    ∧ (Main1dInt8act.main trtNullInput exitCodeLogger).log
        = [Event.reportTestStart, Event.build]
    ∧ reportCount (Main1dInt8act.main trtNullInput exitCodeLogger).log = 0
    ∧ (Main1dInt8act.main trtNullInput exitCodeLogger).result = none :=
  ⟨rfl, rfl, rfl, rfl, rfl, rfl⟩

/-- C3, as the code has it: in both programs `build` returns `true` exactly when the
builder, the network, the builder configuration and the engine are all non-null and no
pointer asserted by `constructNetwork` (the input tensor and the two layers) is null;
it returns `false` exactly when one of the four handles is null and no assertion fails;
it does not return exactly when `constructNetwork` is reached and an asserted pointer is
null; and whenever it returns `true` the member `mEngine` is non-null, so that `infer`
called next returns. -/
theorem build_contract (trt : TensorRT) (self : TrtExample) :
    BuildContract Main1b.layers Main1b.build Main1b.infer trt self
    ∧ BuildContract Main1dInt8act.layers Main1dInt8act.build Main1dInt8act.infer trt self :=
  ⟨main1b_buildContract trt self, int8act_buildContract trt self⟩

/-- C3 as stated fails: with a non-null builder, network, builder configuration and
engine, and a null input tensor, `build` returns neither `true` nor `false` in either
program. -/
theorem build_not_true_with_handles_nonnull :
    handlesNonNull trtNullInput = true
    ∧ (Main1b.build trtNullInput ⟨none⟩).result = none
    ∧ (¬ ∃ self1, (Main1b.build trtNullInput ⟨none⟩).result = some (true, self1))
    ∧ (Main1dInt8act.build trtNullInput ⟨none⟩).result = none
    ∧ (¬ ∃ self1, (Main1dInt8act.build trtNullInput ⟨none⟩).result = some (true, self1)) := by
  have h1 : (Main1b.build trtNullInput ⟨none⟩).result = none := rfl
  have h2 : (Main1dInt8act.build trtNullInput ⟨none⟩).result = none := rfl
  refine ⟨rfl, h1, ?_, h2, ?_⟩
  · rintro ⟨s, hs⟩
    rw [h1] at hs
    exact absurd hs (by simp)
  · rintro ⟨s, hs⟩
    rw [h2] at hs
    exact absurd hs (by simp)

/-- C4: in `main1b.cpp` the shape of the declared input `(1, 2, 3, 4)`, negated, is
`-1, -2, -3, -4`, while the expected output of the program is `2, 4, 6, 8`: the two
differ, the comparison flags each of the four elements of the reference output, and
`infer` returns `false` when the execution succeeds and leaves the reference output in
the host output buffer. -/
theorem main1b_expected_output_mismatch :
    shapeLayer Main1b.dims = [1, 2, 3, 4]
    ∧ Main1b.referenceOutput = [-1, -2, -3, -4]
    ∧ Main1b.expected_output = [2, 4, 6, 8]
    ∧ Main1b.referenceOutput ≠ Main1b.expected_output
    ∧ (∀ i, i < 4 → exceedsMain1b (Main1b.referenceOutput.getD i 0)
        (Main1b.expected_output.getD i 0) = true)
    ∧ (Main1b.infer ⟨some (engineWithOutput Main1b.referenceOutput)⟩).result = some false := by
  have hflag : ∀ i, i < 4 → exceedsMain1b (Main1b.referenceOutput.getD i 0)
      (Main1b.expected_output.getD i 0) = true := by
    intro i hi
    have hsmall : (Main1b.expected_output.getD i 0).natAbs < 2 ^ 24 := by
      interval_cases i <;> simp [Main1b.expected_output]
    rw [exceedsMain1b_iff hsmall]
    interval_cases i <;> decide
  refine ⟨by decide, by decide, rfl, by decide, hflag, ?_⟩
  have hres := @main1b_infer_result_of_executed (engineWithOutput Main1b.referenceOutput)
    (contextWithOutput Main1b.referenceOutput) rfl rfl
  rw [hres, Option.some_inj, ← Bool.not_eq_true, compareLoop_fst]
  rintro ⟨_, h⟩
  have h0 := h 0 (by decide)
  have h1 := hflag 0 (by decide)
  rw [Nat.zero_add] at h0
  have h2 : (contextWithOutput Main1b.referenceOutput).hostOutput 0
      = Main1b.referenceOutput.getD 0 0 := rfl
  rw [h2, h1] at h0
  exact absurd h0 (by decide)

/-- C5: in `main1d_int8act.cpp` the expected output is the result of the network on the
input of the program.  The literal input `-1, 0, 1, 2` is stored as the bytes
`255, 0, 1, 2`, which the network reads as `-1, 0, 1, 2`; ReLU and the identity give
`0, 0, 1, 2`, read back as the bytes `0, 0, 1, 2`, which is the expected output; and
when the execution succeeds and leaves this output in the host output buffer, the
comparison has a result at each of the four elements, accepts it, and `infer` returns
`true`. -/
theorem int8_reference_output_accepted (engine : ICudaEngine) (context : IExecutionContext)
    (hctx : engine.createExecutionContext = some context)
    (hexec : context.executeV2 = true)
    (hout : ∀ i, i < 4 → context.hostOutput i = Main1dInt8act.referenceOutput.getD i 0) :
    Main1dInt8act.values.map toUInt8 = [255, 0, 1, 2]
    ∧ (Main1dInt8act.values.map toUInt8).map asInt8 = [-1, 0, 1, 2]
    ∧ Main1dInt8act.referenceOutput = [0, 0, 1, 2]
    ∧ Main1dInt8act.referenceOutput = Main1dInt8act.expected_output
    ∧ (∀ i, i < 4 → exceedsInt8act (context.hostOutput i)
        (Main1dInt8act.expected_output.getD i 0) = some false)
    ∧ (Main1dInt8act.infer ⟨some engine⟩).result = some true := by
  have href : Main1dInt8act.referenceOutput = Main1dInt8act.expected_output := by decide
  have hacc : ∀ i, i < 4 → exceedsInt8act (context.hostOutput i)
      (Main1dInt8act.expected_output.getD i 0) = some false := by
    intro i hi
    rw [hout i hi, href]
    exact exceedsInt8act_self _
  refine ⟨by decide, by decide, by decide, href, hacc, ?_⟩
  rw [int8act_infer_result_of_executed hctx hexec, Option.some_inj, compareLoop_fst]
  refine ⟨rfl, fun k hk => ?_⟩
  have hk4 : k < 4 := hk
  rw [Nat.zero_add, ← Bool.not_eq_true, exceedsExact_iff, not_not]
  rw [hout k hk4, href]
  interval_cases k <;> decide

/-- The hypotheses of `int8_reference_output_accepted` hold for the engine that leaves
the reference output in the output buffer, and `infer` returns `true` on it. -/
theorem int8_reference_output_accepted_witness :
    ((engineWithOutput Main1dInt8act.referenceOutput).createExecutionContext
        = some (contextWithOutput Main1dInt8act.referenceOutput)
      ∧ (contextWithOutput Main1dInt8act.referenceOutput).executeV2 = true
      ∧ ∀ i, i < 4 → (contextWithOutput Main1dInt8act.referenceOutput).hostOutput i
          = Main1dInt8act.referenceOutput.getD i 0)
    ∧ (Main1dInt8act.infer ⟨some (engineWithOutput Main1dInt8act.referenceOutput)⟩).result
        = some true :=
  ⟨⟨rfl, rfl, fun _ _ => rfl⟩,
    (int8_reference_output_accepted (engineWithOutput Main1dInt8act.referenceOutput)
      (contextWithOutput Main1dInt8act.referenceOutput) rfl rfl (fun _ _ => rfl)).2.2.2.2.2⟩

/-- C7: in both programs the accesses to the host buffers stay within buffers sized to
the bound tensors.  The literal input values are as many as the elements of the
declared input tensor (`24 = 1*2*3*4` in `main1b.cpp`, `4 = 1*1*1*4` in
`main1d_int8act.cpp`), the input loop writes exactly that many consecutive indices when
it runs, and the indices read from the output buffer are all below the element count of
the output tensor (the rank `4` of the input for the shape network, `1*1*1*4` for the
INT8 network). -/
theorem buffer_accesses_in_bounds :
    (AccessesInBounds Main1b.infer Main1b.values Main1b.dims Main1b.outputDims
      ∧ volume Main1b.dims = 24 ∧ Main1b.values.length = 24
      ∧ volume Main1b.outputDims = (Main1b.dims.nbDims : Int)
      ∧ volume Main1b.outputDims = 4)
    ∧ (AccessesInBounds Main1dInt8act.infer Main1dInt8act.values Main1dInt8act.dims
        Main1dInt8act.outputDims
      ∧ volume Main1dInt8act.dims = 4 ∧ Main1dInt8act.values.length = 4
      ∧ volume Main1dInt8act.outputDims = 4) := by
  have v1 : volume Main1b.dims = 24 := by decide
  have v2 : volume Main1b.outputDims = 4 := by decide
  have v3 : volume Main1dInt8act.dims = 4 := by decide
  have v4 : volume Main1dInt8act.outputDims = 4 := by decide
  have l1 : Main1b.values.length = 24 := by decide
  have l2 : Main1dInt8act.values.length = 4 := by decide
  refine ⟨⟨?_, v1, l1, ?_, v2⟩, ⟨?_, v3, l2, v4⟩⟩
  · exact accessesInBounds_of_indices (by rw [l1, v1]; rfl) (by rw [v2])
      main1b_infer_indices
  · rw [v2]
    rfl
  · exact accessesInBounds_of_indices (by rw [l2, v3]; rfl) (by rw [v4])
      int8act_infer_indices

/-- C8: in both programs `infer` returns `false` without reading any output element
when the creation of the execution context fails or when `executeV2` reports failure,
and a line of the verification loop occurs only in a run whose execution succeeded,
after `executeV2` and `copyOutputToHost`. -/
theorem infer_failure_paths (self : TrtExample) :
    FailurePaths Main1b.infer self ∧ FailurePaths Main1dInt8act.infer self :=
  ⟨main1b_failurePaths self, int8act_failurePaths self⟩

/-- C9: in `main1d_int8act.cpp` the store of an `int` into the `uint8_t` input buffer
keeps the value as a signed 8-bit quantity exactly when it lies in `-128 .. 127`: the
byte stored is always the value modulo `256`, a byte in `0 .. 255`; reading that byte as
a two's-complement signed 8-bit number gives the value back if and only if
`-128 ≤ v ≤ 127`; the literal `-1` is stored as `255` and read back as `-1`; and the
input loop of the program stores the bytes `255, 0, 1, 2`. -/
theorem int8_store_roundtrip (v : Int) :
    (toUInt8 v = v % 256 ∧ IsUInt8 (toUInt8 v))
    ∧ (asInt8 (toUInt8 v) = v ↔ (-128 ≤ v ∧ v ≤ 127))
    ∧ (toUInt8 (-1) = 255 ∧ asInt8 255 = -1)
    ∧ inputLoop toUInt8 0 Main1dInt8act.values =
        [Event.setInput 0 255, Event.setInput 1 0, Event.setInput 2 1, Event.setInput 3 2] := by
  refine ⟨⟨rfl, ?_⟩, ?_, by decide, by decide⟩
  · unfold IsUInt8 toUInt8
    omega
  · unfold asInt8 toUInt8
    split_ifs <;> omega

end TrtTypeExamples
